import Mathlib

/-!
Verification of the OAuth/PKCE core and account store of
`antigravity-claude-proxy` (files `src/oauth.js`, `src/accounts-cli.js`),
as a shallow embedding in Lean 4.

JavaScript values that matter to the claims are embedded as follows:
`undefined`/`null`-able strings become `Option String`; JSON values become
an inductive `Json` type whose objects are association lists; JavaScript
truthiness on query-parameter strings (`if (error)`, `if (!code)`) becomes
an explicit `jsTruthy`; the Node `http` server plus the `setTimeout` race
in `startCallbackServer` become an event-trace state machine with explicit
promise-settlement (first resolve/reject wins) and close-call counting;
`crypto` primitives (`sha256`, `randomBytes`) are parameters, while the
`base64url` / `hex` encodings and the `URLSearchParams`
(`application/x-www-form-urlencoded`) serializer are defined concretely.
-/

namespace AGProxy

/-- JSON values, as produced by `JSON.parse` / consumed by the code.
Objects are association lists of key/value pairs (insertion order kept). -/
inductive Json where
  | null : Json
  | bool (b : Bool) : Json
  | num (n : Int) : Json
  | str (s : String) : Json
  | arr (xs : List Json) : Json
  | obj (fields : List (String × Json)) : Json

/-- Property lookup `o[k]`: `none` models JavaScript `undefined`
(absent key, or receiver that is not an object). -/
def Json.getProp : Json → String → Option Json
  | .obj fields, k => (fields.find? (fun p => p.1 = k)).map Prod.snd
  | _, _ => none

/-- JavaScript truthiness of a `Json` value. -/
def Json.truthy : Json → Bool
  | .null => false
  | .bool b => b
  | .num n => n ≠ 0
  | .str s => s ≠ ""
  | .arr _ => true
  | .obj _ => true

/-- Truthiness of a possibly-absent query parameter string
(`url.searchParams.get(k)` returns `null` when absent). -/
def jsTruthy : Option String → Bool
  | none => false
  | some s => s ≠ ""

/-! ## Account store (`src/accounts-cli.js`) -/

/-- `MAX_ACCOUNTS` (accounts-cli.js line 30). -/
def MAX_ACCOUNTS : Nat := 10

/-- One `AccountRecord` of the persisted ledger, with the fields the CLI
creates (accounts-cli.js lines 171-178) and the rotation fields the
external consumer mutates. -/
structure Account where
  email : String
  refreshToken : Option String
  projectId : Option String
  addedAt : String
  lastUsed : Option String
  isRateLimited : Bool
  rateLimitResetTime : Option String
deriving Repr, DecidableEq

/-- The in-place update `addAccount` performs when
`existingAccounts.find(a => a.email === result.email)` succeeds
(accounts-cli.js lines 157-163): the first record with a matching email
gets its `refreshToken`, `projectId` and `addedAt` replaced; every other
field and every other record is untouched, and nothing is appended. -/
def updateExisting (email : String) (rt pid : Option String) (t : String) :
    List Account → List Account
  | [] => []
  | a :: rest =>
    if a.email = email then
      { a with refreshToken := rt, projectId := pid, addedAt := t } :: rest
    else
      a :: updateExisting email rt pid t rest

/-- Outcome of one `addAccount(accounts)` call, as observed by the
`interactiveAdd` loop: a fresh record was returned (to be pushed), an
existing record was updated in place (returns `null`), or the OAuth flow
failed (returns `null`, no mutation). -/
inductive AddOutcome where
  | fresh (a : Account) : AddOutcome
  | dup (email : String) (rt pid : Option String) (t : String) : AddOutcome
  | failed : AddOutcome
deriving Repr, DecidableEq

/-- Effect of one `addAccount` call on the in-memory ledger
(accounts-cli.js lines 156-164 mutate in place on a duplicate;
lines 206-208 push a fresh record). -/
def applyAdd (accounts : List Account) : AddOutcome → List Account
  | .fresh a => accounts ++ [a]
  | .dup email rt pid t => updateExisting email rt pid t accounts
  | .failed => accounts

/-- One round of the `interactiveAdd` while-loop: the `addAccount` outcome
and the user's answer to "Add another account? [y/N]" (`true` iff `y`). -/
structure AddStep where
  outcome : AddOutcome
  more : Bool
deriving Repr, DecidableEq

/-- The `while (accounts.length < MAX_ACCOUNTS)` loop of `interactiveAdd`
(accounts-cli.js lines 205-225), run against a finite stream of rounds.
Returns the final ledger and whether the
"Maximum of MAX_ACCOUNTS accounts reached" notice was printed.
An exhausted stream models the session ending. -/
def interactiveAddLoop (accounts : List Account) : List AddStep → List Account × Bool
  | [] => (accounts, false)
  | step :: rest =>
    if accounts.length < MAX_ACCOUNTS then
      let accounts' := applyAdd accounts step.outcome
      if MAX_ACCOUNTS ≤ accounts'.length then
        (accounts', true)
      else if step.more then
        interactiveAddLoop accounts' rest
      else
        (accounts', false)
    else
      (accounts, false)

/-! ## Store file: load / save (`src/accounts-cli.js` lines 65-113) -/

/-- What reading the store file can observe: the file is absent
(`existsSync` false), exists but `readFileSync` throws, or yields text. -/
inductive FileRead where
  | absent : FileRead
  | readError : FileRead
  | content (s : String) : FileRead
deriving Repr, DecidableEq

/-- `loadAccounts()` (accounts-cli.js lines 65-76): absent file returns
`[]`; a read or `JSON.parse` failure is caught and returns `[]`; otherwise
the result is `config.accounts || []` (JavaScript truthiness).
`parse` abstracts `JSON.parse`, which may fail. -/
def loadAccounts (parse : String → Except String Json) : FileRead → Json
  | .absent => .arr []
  | .readError => .arr []
  | .content s =>
    match parse s with
    | .error _ => .arr []
    | .ok config =>
      match config.getProp "accounts" with
      | some v => if v.truthy then v else .arr []
      | none => .arr []

/-- Store settings (`cooldownDurationMs`, `maxRetries`) after the
defaulting spread in `saveAccounts` (accounts-cli.js lines 99-103). -/
structure Settings where
  cooldownDurationMs : Int
  maxRetries : Int
deriving Repr, DecidableEq

/-- The per-account object `saveAccounts` serializes
(accounts-cli.js lines 89-98), with `now` the `new Date().toISOString()`
fallback for a missing `addedAt` (here `addedAt` is always present). -/
def accountJson (acc : Account) : Json :=
  .obj [
    ("email", .str acc.email),
    ("source", .str "oauth"),
    ("refreshToken", match acc.refreshToken with | some s => .str s | none => .null),
    ("projectId", match acc.projectId with | some s => .str s | none => .null),
    ("addedAt", .str acc.addedAt),
    ("lastUsed", match acc.lastUsed with | some s => .str s | none => .null),
    ("isRateLimited", .bool acc.isRateLimited),
    ("rateLimitResetTime", match acc.rateLimitResetTime with | some s => .str s | none => .null)
  ]

/-- The full config object `saveAccounts` writes
(accounts-cli.js lines 88-105): all accounts, merged settings, and
`activeIndex` reset to 0. -/
def configJson (accounts : List Account) (settings : Settings) : Json :=
  .obj [
    ("accounts", .arr (accounts.map accountJson)),
    ("settings", .obj [
      ("cooldownDurationMs", .num settings.cooldownDurationMs),
      ("maxRetries", .num settings.maxRetries)
    ]),
    ("activeIndex", .num 0)
  ]

/-- `saveAccounts(accounts, settings)` (accounts-cli.js line 107):
`writeFileSync` replaces the store file's content with the serialized
config, independent of whatever the file held before.
`stringify` abstracts `JSON.stringify(config, null, 2)`. -/
def saveAccounts (stringify : Json → String) (accounts : List Account)
    (settings : Settings) (_oldFile : FileRead) : FileRead :=
  .content (stringify (configJson accounts settings))

/-- The store's file system: the current config path and the legacy path. -/
structure StoreFS where
  current : FileRead
  legacy : FileRead
deriving Repr, DecidableEq

/-- Modelled from the spec: the one-time legacy migration of the account
store's `load()` ("copies a legacy-location file into the current location
on first load if the legacy file exists and the current one does not",
spec §4.6). The migration code itself is not among the reviewed sources
(the server-side account manager / `constants.js` are absent); the same
pattern appears verbatim for the usage-stats store
(`src/modules/usage-stats.js` lines 48-57). -/
def migrateLegacy (fs : StoreFS) : StoreFS :=
  if fs.legacy ≠ .absent ∧ fs.current = .absent then
    { fs with current := fs.legacy }
  else
    fs

/-- `load()` including the spec-modelled legacy migration: migrate first,
then read the current file as `loadAccounts` does. -/
def loadWithMigration (parse : String → Except String Json) (fs : StoreFS) : Json :=
  loadAccounts parse (migrateLegacy fs).current

/-! ## Encodings used by `src/oauth.js`

`Buffer.toString('base64url')` is standard base64 over the URL-safe
alphabet with no padding; `Buffer.toString('hex')` is lowercase hex;
`URLSearchParams.toString()` is the `application/x-www-form-urlencoded`
serializer (unreserved set: ASCII alphanumeric and `*`, `-`, `.`, `_`;
space becomes `+`; everything else `%XX` with uppercase hex).
Inputs here are byte lists (`Nat` reduced mod 256) and ASCII strings. -/

/-- The URL-safe base64 alphabet. -/
def BASE64URL_ALPHABET : List Char :=
  "ABCDEFGHIJKLMNOPQRSTUVWXYZabcdefghijklmnopqrstuvwxyz0123456789-_".data

/-- Alphabet character for a sextet. -/
def base64Char (n : Nat) : Char := BASE64URL_ALPHABET.getD (n % 64) 'A'

/-- Unpadded base64url of a byte list, three bytes to four characters,
with the standard 1- and 2-byte tails. -/
def base64urlChunks : List Nat → List Char
  | [] => []
  | [b0] => [base64Char (b0 / 4), base64Char (b0 % 4 * 16)]
  | [b0, b1] =>
    [base64Char (b0 / 4), base64Char (b0 % 4 * 16 + b1 / 16), base64Char (b1 % 16 * 4)]
  | b0 :: b1 :: b2 :: rest =>
    base64Char (b0 / 4) :: base64Char (b0 % 4 * 16 + b1 / 16) ::
      base64Char (b1 % 16 * 4 + b2 / 64) :: base64Char (b2 % 64) :: base64urlChunks rest

/-- `Buffer.from(bytes).toString('base64url')`. -/
def base64urlEncode (bytes : List Nat) : String :=
  String.mk (base64urlChunks (bytes.map (· % 256)))

/-- Lowercase hex digit. -/
def hexChar (n : Nat) : Char := "0123456789abcdef".data.getD (n % 16) '0'

/-- `Buffer.from(bytes).toString('hex')`. -/
def hexEncode (bytes : List Nat) : String :=
  String.mk ((bytes.map (fun b => [hexChar (b % 256 / 16), hexChar (b % 16)])).flatten)

/-- Characters the form-urlencoded serializer leaves as-is. -/
def formSafeChar (c : Char) : Bool :=
  c.isAlphanum || c = '*' || c = '-' || c = '.' || c = '_'

/-- Uppercase hex digit for percent escapes. -/
def percentHexChar (n : Nat) : Char := "0123456789ABCDEF".data.getD (n % 16) '0'

/-- Form-urlencoding of one (ASCII) character. -/
def formEncodeChar (c : Char) : List Char :=
  if formSafeChar c then [c]
  else if c = ' ' then ['+']
  else ['%', percentHexChar (c.toNat / 16 % 16), percentHexChar (c.toNat % 16)]

/-- Form-urlencoding of an (ASCII) string. -/
def formEncode (s : String) : String := String.mk (s.data.map formEncodeChar).flatten

/-- One serialized `k=v` pair. -/
def encodedPair (p : String × String) : String :=
  formEncode p.1 ++ "=" ++ formEncode p.2

/-- Concatenation with `&` separators (the join `URLSearchParams`
serialization performs between pairs). -/
def joinAmp : List String → String
  | [] => ""
  | [s] => s
  | s :: rest => s ++ "&" ++ joinAmp rest

/-- `URLSearchParams.toString()`: pairs in insertion order, `k=v` joined
by `&`, keys and values form-urlencoded. -/
def serializeQuery (pairs : List (String × String)) : String :=
  joinAmp (pairs.map encodedPair)

/-- The characters up to and including the first question mark dropped:
what remains is a URL's query text. -/
def afterQuestionMark : List Char → List Char
  | [] => []
  | c :: rest => if c = '?' then rest else afterQuestionMark rest

/-- Split on ampersands (an empty text yields one empty segment, as the
form-urlencoded parse does). -/
def splitOnAmp : List Char → List (List Char)
  | [] => [[]]
  | c :: rest =>
    if c = '&' then [] :: splitOnAmp rest
    else
      match splitOnAmp rest with
      | s :: ss => (c :: s) :: ss
      | [] => [[c]]

/-- The `k=v` segments of a URL's query part, read back from the URL
text: everything after the first question mark, split on ampersands. -/
def querySegments (u : String) : List String :=
  (splitOnAmp (afterQuestionMark u.data)).map String.mk

/-- UTF-8 bytes of an ASCII string (`hash.update(verifier)` hashes the
verifier string's bytes). -/
def strBytes (s : String) : List Nat := s.data.map Char.toNat

/-! ## OAuth flow (`src/oauth.js`) -/

/-- oauth.js line 14. -/
def GOOGLE_CLIENT_ID : String :=
  "1071006060591-tmhssin2h21lcre235vtolojh4g403ep.apps.googleusercontent.com"

/-- oauth.js line 16. -/
def GOOGLE_AUTH_URL : String := "https://accounts.google.com/o/oauth2/v2/auth"

/-- oauth.js lines 21-22. -/
def REDIRECT_URI : String := "http://localhost:51121/oauth-callback"

/-- oauth.js lines 25-31: the five scopes joined with a space. -/
def SCOPES : String :=
  String.intercalate " " [
    "https://www.googleapis.com/auth/cloud-platform",
    "https://www.googleapis.com/auth/userinfo.email",
    "https://www.googleapis.com/auth/userinfo.profile",
    "https://www.googleapis.com/auth/cclog",
    "https://www.googleapis.com/auth/experimentsandconfigs"
  ]

/-- Result of `generatePKCE()`. -/
structure PKCEPair where
  verifier : String
  challenge : String
deriving Repr, DecidableEq

/-- `generatePKCE()` (oauth.js lines 36-43), parametric in the crypto
primitives: `sha256` abstracts `createHash('sha256')` (bytes to bytes) and
`rnd` the 32 bytes from `crypto.randomBytes(32)`. The verifier is the
base64url of the random bytes; the challenge is the base64url of the
SHA-256 of the verifier string's bytes. -/
def generatePKCE (sha256 : List Nat → List Nat) (rnd : List Nat) : PKCEPair :=
  let verifier := base64urlEncode rnd
  { verifier := verifier, challenge := base64urlEncode (sha256 (strBytes verifier)) }

/-- Result of `getAuthorizationUrl()`. -/
structure AuthUrlResult where
  url : String
  verifier : String
  state : String
deriving Repr, DecidableEq

/-- The `URLSearchParams` entries of `getAuthorizationUrl`
(oauth.js lines 53-63), in insertion order. -/
def authParams (challenge state : String) : List (String × String) :=
  [("client_id", GOOGLE_CLIENT_ID),
   ("redirect_uri", REDIRECT_URI),
   ("response_type", "code"),
   ("scope", SCOPES),
   ("access_type", "offline"),
   ("prompt", "consent"),
   ("code_challenge", challenge),
   ("code_challenge_method", "S256"),
   ("state", state)]

/-- `getAuthorizationUrl()` (oauth.js lines 49-70): PKCE pair from 32
random bytes, state as hex of 16 random bytes, URL assembled from the
auth endpoint and the serialized params. -/
def getAuthorizationUrl (sha256 : List Nat → List Nat) (rnd32 rnd16 : List Nat) :
    AuthUrlResult :=
  let p := generatePKCE sha256 rnd32
  let state := hexEncode rnd16
  { url := GOOGLE_AUTH_URL ++ "?" ++ serializeQuery (authParams p.challenge state),
    verifier := p.verifier,
    state := state }

/-! ## Callback listener (`src/oauth.js` lines 76-177)

`startCallbackServer` races the HTTP handler against a `setTimeout` that
is never cleared. The run is modelled as a fold over an event trace;
the promise settles once (first `resolve`/`reject` wins, later calls are
counted but have no effect) while `server.close()` calls are counted
unconditionally. A request arriving after the server closed is dropped. -/

/-- A parsed incoming request: pathname and the three query parameters
(`searchParams.get` returns `null`, here `none`, when absent). -/
structure CbRequest where
  pathname : String
  code : Option String
  state : Option String
  error : Option String
deriving Repr, DecidableEq

/-- The handler's decision on a callback-path request
(oauth.js lines 87-156): a truthy `error` rejects with the provider
error; then a `state` not strictly equal to the expected state rejects
with "State mismatch"; then a falsy `code` rejects; otherwise the code is
resolved. -/
def callbackOutcome (expectedState : String) (r : CbRequest) : Except String String :=
  if jsTruthy r.error then .error ("OAuth error: " ++ r.error.getD "")
  else if r.state ≠ some expectedState then .error "State mismatch"
  else if !jsTruthy r.code then .error "No authorization code"
  else .ok (r.code.getD "")

/-- An event of one listener run: an incoming HTTP request, or the
timeout timer firing. -/
inductive ListenerEvent where
  | request (r : CbRequest) : ListenerEvent
  | timerFire : ListenerEvent
deriving Repr, DecidableEq

/-- Observable state of one `startCallbackServer` run: the promise's
settlement (first value wins), how many times `resolve`/`reject` were
invoked, how many times `server.close()` was invoked, and whether the
server has closed. -/
structure ListenerRun where
  settled : Option (Except String String)
  resolveCalls : Nat
  closeCalls : Nat
  closed : Bool
deriving Repr

/-- State before any event. -/
def initRun : ListenerRun :=
  { settled := none, resolveCalls := 0, closeCalls := 0, closed := false }

/-- One `resolve`/`reject` invocation: always counted, but only the first
one settles the promise. -/
def settlePromise (st : ListenerRun) (v : Except String String) : ListenerRun :=
  { st with
    resolveCalls := st.resolveCalls + 1,
    settled := match st.settled with | some w => some w | none => some v }

/-- One `server.close()` invocation. -/
def closeServer (st : ListenerRun) : ListenerRun :=
  { st with closeCalls := st.closeCalls + 1, closed := true }

/-- One event of the run. The timer callback (oauth.js lines 172-175)
always closes and rejects — it is never cleared. A request is dropped if
the server already closed; a request off the callback path is answered
404 and changes nothing (lines 81-85); a callback-path request closes the
server and settles with the handler's decision. -/
def stepListener (expectedState : String) (st : ListenerRun) : ListenerEvent → ListenerRun
  | .timerFire =>
    settlePromise (closeServer st) (.error "OAuth callback timeout - no response received")
  | .request r =>
    if st.closed then st
    else if r.pathname ≠ "/oauth-callback" then st
    else settlePromise (closeServer st) (callbackOutcome expectedState r)

/-- A whole run: fold the events over the initial state. -/
def runListener (expectedState : String) (events : List ListenerEvent) : ListenerRun :=
  events.foldl (stepListener expectedState) initRun

/-- Whether an event, arriving with the server still open, settles the
promise: the timer always does, a request only on the callback path. -/
def eventTerminal : ListenerEvent → Bool
  | .timerFire => true
  | .request r => r.pathname = "/oauth-callback"

/-- The settlement value an event produces. -/
def eventOutcome (expectedState : String) : ListenerEvent → Except String String
  | .timerFire => .error "OAuth callback timeout - no response received"
  | .request r => callbackOutcome expectedState r

/-- The outcome of the first settling event of a trace, if any. -/
def firstSettleOutcome (expectedState : String) (events : List ListenerEvent) :
    Option (Except String String) :=
  (events.find? eventTerminal).map (eventOutcome expectedState)

/-- Whether `addAccount` reaches token exchange for a flow with the given
event trace: `exchangeCode` runs iff `await startCallbackServer(state)`
resolved (accounts-cli.js lines 151-154); any rejection lands in the
`catch` and returns without exchanging. -/
def tokenExchangeInvoked (expectedState : String) (events : List ListenerEvent) : Bool :=
  match (runListener expectedState events).settled with
  | some (.ok _) => true
  | _ => false

/-! ## Token refresh and project discovery (`src/oauth.js` lines 223-307) -/

/-- A provider HTTP response: `ok` status flag, error body text, parsed
JSON body. -/
structure FetchResponse where
  ok : Bool
  text : String
  json : Json

/-- `refreshAccessToken(refreshToken)` (oauth.js lines 223-247), as a
function of the provider's response: non-ok fails with the error body;
otherwise the returned object holds exactly the keys `accessToken` and
`expiresIn` (values `none` model `undefined` fields of the body). -/
def refreshAccessToken (resp : FetchResponse) : Except String (List (String × Option Json)) :=
  if !resp.ok then .error ("Token refresh failed: " ++ resp.text)
  else .ok [("accessToken", resp.json.getProp "access_token"),
            ("expiresIn", resp.json.getProp "expires_in")]

/-- What one discovery candidate's `fetch` produced: the request threw,
or a response with an `ok` flag and a JSON body. -/
inductive FetchOutcome where
  | threw : FetchOutcome
  | response (ok : Bool) (body : Json) : FetchOutcome

/-- Optional chaining `v?.id`: `undefined` when the receiver is
null/undefined, else the property lookup. -/
def optChainId : Json → Option Json
  | .null => none
  | v => v.getProp "id"

/-- `discoverProjectId(accessToken)` (oauth.js lines 272-307) as a
function of the per-candidate fetch outcomes, in endpoint order: a thrown
request is caught and skipped; a non-ok response is skipped
(`if (!response.ok) continue`); on an ok response, a string-typed
`cloudaicompanionProject` is returned as is, else a truthy
`cloudaicompanionProject?.id` is returned; otherwise the next candidate
is tried. When no candidate yields a project id the function returns
`null` (`none`). -/
def discoverProjectId : List FetchOutcome → Option Json
  | [] => none
  | .threw :: rest => discoverProjectId rest
  | .response ok body :: rest =>
    if !ok then discoverProjectId rest
    else
      match body.getProp "cloudaicompanionProject" with
      | some (.str s) => some (.str s)
      | some v =>
        match optChainId v with
        | some idv => if idv.truthy then some idv else discoverProjectId rest
        | none => discoverProjectId rest
      | none => discoverProjectId rest

/-! ## Auxiliary predicates and concrete fixtures -/

/-- Whether a value is a JavaScript string (the `typeof x === 'string'`
test of oauth.js line 295). -/
def Json.isString : Json → Bool
  | .str _ => true
  | _ => false

/-- Whether a discovery candidate failed: its request threw, or its
response had a non-success status. -/
def candidateFailed : FetchOutcome → Bool
  | .threw => true
  | .response ok _ => !ok

/-- A concrete account record used to evaluate the theorems. -/
def mkAcct (e : String) : Account :=
  { email := e, refreshToken := some "rt0", projectId := none,
    addedAt := "2025-01-01T00:00:00.000Z", lastUsed := none,
    isRateLimited := false, rateLimitResetTime := none }

/-- A concrete ledger already at the cap of 10 distinct emails. -/
def tenAccounts : List Account :=
  [mkAcct "u0@example.com", mkAcct "u1@example.com", mkAcct "u2@example.com",
   mkAcct "u3@example.com", mkAcct "u4@example.com", mkAcct "u5@example.com",
   mkAcct "u6@example.com", mkAcct "u7@example.com", mkAcct "u8@example.com",
   mkAcct "u9@example.com"]

/-- A well-formed provider callback carrying a code and the expected
state. -/
def goodCallback (es : String) : CbRequest :=
  { pathname := "/oauth-callback", code := some "auth-code-1",
    state := some es, error := none }

/-- A parse that always fails, standing for `JSON.parse` on a corrupt
file. -/
def parseAlwaysBad : String → Except String Json :=
  fun _ => .error "Unexpected end of JSON input"

/-- A parse that yields an object with no `accounts` field. -/
def parseEmptyObject : String → Except String Json :=
  fun _ => .ok (.obj [])

/-- A successful token-endpoint response that does include a new refresh
token in its body. -/
def refreshRespWithToken : FetchResponse :=
  { ok := true, text := "",
    json := .obj [("access_token", .str "at"), ("expires_in", .num 3599),
                  ("refresh_token", .str "rt-new")] }

/-- A failed token-endpoint response with a provider error body. -/
def refreshRespFail : FetchResponse :=
  { ok := false, text := "invalid_grant", json := .obj [] }

/-- Two failing discovery candidates: a network error, then a 500. -/
def failedCandidates : List FetchOutcome :=
  [.threw, .response false (.obj [])]

/-- A discovery body whose project field is a bare string. -/
def bodyWithStringProject : Json :=
  .obj [("cloudaicompanionProject", .str "proj-123")]

/-- A discovery body whose project field is a nested object with an id. -/
def bodyWithNestedProject : Json :=
  .obj [("cloudaicompanionProject", .obj [("id", .str "proj-456")])]

/-- A callback on the right path, carrying a code but a wrong state. -/
def mismatchReq : CbRequest :=
  { pathname := "/oauth-callback", code := some "auth-code-1",
    state := some "evil", error := none }

end AGProxy

namespace AGProxy

/-! ## Theorems -/

/-- Helper: the in-place update never changes the ledger length. -/
theorem updateExisting_length (em : String) (rt pid : Option String) (t : String) :
    ∀ accs : List Account, (updateExisting em rt pid t accs).length = accs.length := by
  intro accs
  induction accs with
  | nil => rfl
  | cons a rest ih =>
    simp only [updateExisting]
    split <;> simp [ih]

/-- Helper: one `addAccount` round grows the ledger by at most one. -/
theorem applyAdd_length (accs : List Account) (o : AddOutcome) :
    (applyAdd accs o).length ≤ accs.length + 1 := by
  cases o <;> simp [applyAdd, updateExisting_length]

/-- C3 (amended): the interactive add loop never pushes the ledger past
the cap of 10, and when the ledger already holds 10 records the loop
performs no add attempt at all: it returns the ledger unchanged and does
not print the maximum-reached notice (no `CAPACITY_EXCEEDED`-style error
is surfaced). -/
theorem addLoop_respects_cap (accs : List Account) (steps : List AddStep)
    (h : accs.length ≤ MAX_ACCOUNTS) :
    (interactiveAddLoop accs steps).1.length ≤ MAX_ACCOUNTS ∧
    (accs.length = MAX_ACCOUNTS → interactiveAddLoop accs steps = (accs, false)) := by
  induction steps generalizing accs with
  | nil => exact ⟨h, fun _ => rfl⟩
  | cons s rest ih =>
    by_cases hlt : accs.length < MAX_ACCOUNTS
    · have hle : (applyAdd accs s.outcome).length ≤ MAX_ACCOUNTS := by
        have := applyAdd_length accs s.outcome
        omega
      constructor
      · simp only [interactiveAddLoop, if_pos hlt]
        by_cases hfull : MAX_ACCOUNTS ≤ (applyAdd accs s.outcome).length
        · simpa [hfull] using hle
        · by_cases hmore : s.more = true
          · simpa [hfull, hmore] using (ih (applyAdd accs s.outcome) hle).1
          · simp only [Bool.not_eq_true] at hmore
            simpa [hfull, hmore] using hle
      · intro heq
        omega
    · have heq : interactiveAddLoop accs (s :: rest) = (accs, false) := by
        simp [interactiveAddLoop, hlt]
      exact ⟨by simpa [heq] using h, fun _ => heq⟩

/-- C3 witness: the cap theorem evaluated on the concrete full ledger. -/
theorem addLoop_respects_cap_witness :
    (interactiveAddLoop tenAccounts [⟨.fresh (mkAcct "new@example.com"), false⟩]).1.length ≤
      MAX_ACCOUNTS ∧
    (tenAccounts.length = MAX_ACCOUNTS →
      interactiveAddLoop tenAccounts [⟨.fresh (mkAcct "new@example.com"), false⟩] =
        (tenAccounts, false)) :=
  addLoop_respects_cap tenAccounts [⟨.fresh (mkAcct "new@example.com"), false⟩] (by decide)

/-- C3 counterexample: with the ledger already at 10, a round offering an
11th distinct-email record neither surfaces any capacity failure (the
notice flag is `false` — the loop body never runs) nor touches the
ledger; the claim that the attempt "fails with CAPACITY_EXCEEDED" is
false on the code, which skips the add silently. -/
theorem addLoop_full_no_capacity_error :
    interactiveAddLoop tenAccounts [⟨.fresh (mkAcct "eleventh@example.com"), true⟩] =
      (tenAccounts, false) := by
  decide

/-- C4: upserting a record whose email is already present (case-sensitive
exact match on the first occurrence) rewrites exactly the
`refreshToken`, `projectId` and `addedAt` of that record in place: the
records before and after it are untouched, its position and its
`lastUsed`, `isRateLimited`, `rateLimitResetTime` fields are preserved
(visible in the record-update expression), nothing is appended, and the
length is unchanged. -/
theorem upsert_existing_in_place (pre post : List Account) (a : Account)
    (em : String) (rt pid : Option String) (t : String)
    (hpre : ∀ b ∈ pre, b.email ≠ em) (ha : a.email = em) :
    updateExisting em rt pid t (pre ++ a :: post) =
      pre ++ { a with refreshToken := rt, projectId := pid, addedAt := t } :: post ∧
    (updateExisting em rt pid t (pre ++ a :: post)).length = (pre ++ a :: post).length := by
  refine ⟨?_, updateExisting_length em rt pid t (pre ++ a :: post)⟩
  induction pre with
  | nil => simp [updateExisting, ha]
  | cons b pre ih =>
    have hb : b.email ≠ em := hpre b (by simp)
    simp only [List.cons_append, updateExisting, if_neg hb]
    exact congrArg (b :: ·) (ih (fun x hx => hpre x (by simp [hx])))

/-- C4 witness: the in-place upsert evaluated on a concrete three-record
ledger whose middle record matches. -/
theorem upsert_existing_in_place_witness :
    updateExisting "u1@example.com" (some "newrt") (some "proj-9")
        "2025-03-03T00:00:00.000Z"
        ([mkAcct "u0@example.com"] ++ mkAcct "u1@example.com" :: [mkAcct "u2@example.com"]) =
      [mkAcct "u0@example.com"] ++
        { (mkAcct "u1@example.com") with
          refreshToken := some "newrt",
          projectId := some "proj-9",
          addedAt := "2025-03-03T00:00:00.000Z" } ::
          [mkAcct "u2@example.com"] ∧
    (updateExisting "u1@example.com" (some "newrt") (some "proj-9")
        "2025-03-03T00:00:00.000Z"
        ([mkAcct "u0@example.com"] ++ mkAcct "u1@example.com" :: [mkAcct "u2@example.com"])).length =
      ([mkAcct "u0@example.com"] ++ mkAcct "u1@example.com" :: [mkAcct "u2@example.com"]).length :=
  upsert_existing_in_place [mkAcct "u0@example.com"] [mkAcct "u2@example.com"]
    (mkAcct "u1@example.com") "u1@example.com" (some "newrt") (some "proj-9")
    "2025-03-03T00:00:00.000Z" (by decide) (by decide)

end AGProxy

namespace AGProxy

/-- C10: a store file that exists but cannot be parsed, or parses to an
object with no `accounts` field, loads as the empty ledger — the same
value an absent or unreadable file loads as, so a corrupt store is
indistinguishable from an empty one at this interface — and a subsequent
save writes content that does not depend on what the file held before. -/
theorem corrupt_store_loads_empty (parse : String → Except String Json)
    (stringify : Json → String) (s msg : String) (j : Json)
    (accounts : List Account) (settings : Settings) :
    (parse s = .error msg → loadAccounts parse (.content s) = .arr []) ∧
    (parse s = .ok j → j.getProp "accounts" = none →
      loadAccounts parse (.content s) = .arr []) ∧
    loadAccounts parse .readError = .arr [] ∧
    loadAccounts parse .absent = .arr [] ∧
    (∀ oldA oldB : FileRead,
      saveAccounts stringify accounts settings oldA =
        saveAccounts stringify accounts settings oldB) := by
  refine ⟨fun h => ?_, fun h hacc => ?_, rfl, rfl, fun _ _ => rfl⟩
  · simp [loadAccounts, h]
  · simp [loadAccounts, h, hacc]

/-- C10 witness: the theorem applied to a parse that always fails and to
one yielding an object without an `accounts` field. -/
theorem corrupt_store_loads_empty_witness :
    loadAccounts parseAlwaysBad (.content "not json") = .arr [] ∧
    loadAccounts parseEmptyObject (.content "\x7b\x7d") = .arr [] :=
  ⟨(corrupt_store_loads_empty parseAlwaysBad (fun _ => "") "not json"
      "Unexpected end of JSON input" (.obj []) [] ⟨60000, 5⟩).1 rfl,
   (corrupt_store_loads_empty parseEmptyObject (fun _ => "") "\x7b\x7d"
      "" (.obj []) [] ⟨60000, 5⟩).2.1 rfl rfl⟩

/-- C7: loading with an absent store file yields the empty ledger rather
than an error (the function is total), and the legacy migration — code
not among the reviewed sources, modelled from the spec — copies the
legacy file into the current location exactly when the legacy file exists
and the current one does not, leaving the legacy file in place, after
which the load reads the migrated content; when both are absent the load
is empty, and when the current file exists the migration is a no-op. -/
theorem load_absent_empty_and_migration (parse : String → Except String Json)
    (fs : StoreFS) (s : String) :
    loadAccounts parse .absent = .arr [] ∧
    (migrateLegacy fs).legacy = fs.legacy ∧
    (fs.current = .absent → fs.legacy = .absent →
      loadWithMigration parse fs = .arr []) ∧
    (fs.current = .absent → fs.legacy = .content s →
      (migrateLegacy fs).current = .content s ∧
      loadWithMigration parse fs = loadAccounts parse (.content s)) ∧
    (fs.current ≠ .absent → migrateLegacy fs = fs) := by
  refine ⟨rfl, ?_, fun hc hl => ?_, fun hc hl => ?_, fun hc => ?_⟩
  · unfold migrateLegacy
    split <;> rfl
  · simp [loadWithMigration, migrateLegacy, hc, hl, loadAccounts]
  · constructor <;> simp [loadWithMigration, migrateLegacy, hc, hl]
  · simp [migrateLegacy, hc]

/-- C7 witness: the theorem applied to a file system with an absent
current file and a legacy file with content. -/
theorem load_absent_empty_and_migration_witness :
    (migrateLegacy ⟨.absent, .content "LEGACY"⟩).current = .content "LEGACY" ∧
    loadWithMigration parseAlwaysBad ⟨.absent, .content "LEGACY"⟩ =
      loadAccounts parseAlwaysBad (.content "LEGACY") ∧
    loadWithMigration parseAlwaysBad ⟨.absent, .absent⟩ = .arr [] :=
  ⟨((load_absent_empty_and_migration parseAlwaysBad ⟨.absent, .content "LEGACY"⟩
      "LEGACY").2.2.2.1 rfl rfl).1,
   ((load_absent_empty_and_migration parseAlwaysBad ⟨.absent, .content "LEGACY"⟩
      "LEGACY").2.2.2.1 rfl rfl).2,
   (load_absent_empty_and_migration parseAlwaysBad ⟨.absent, .absent⟩
      "").2.2.1 rfl rfl⟩

/-- C9: a successful refresh returns an object holding exactly the keys
`accessToken` and `expiresIn` — never `refreshToken`, whatever the
provider's body contained — and a non-success response fails with the
token-refresh error carrying the provider's error body. -/
theorem refresh_returns_only_access_token (resp : FetchResponse) :
    (resp.ok = true →
      refreshAccessToken resp =
        .ok [("accessToken", resp.json.getProp "access_token"),
             ("expiresIn", resp.json.getProp "expires_in")]) ∧
    (∀ fields, refreshAccessToken resp = .ok fields →
      fields.map Prod.fst = ["accessToken", "expiresIn"] ∧
      "refreshToken" ∉ fields.map Prod.fst) ∧
    (resp.ok = false →
      refreshAccessToken resp = .error ("Token refresh failed: " ++ resp.text)) := by
  refine ⟨fun h => by simp [refreshAccessToken, h], fun fields hf => ?_,
    fun h => by simp [refreshAccessToken, h]⟩
  cases hok : resp.ok with
  | false => simp [refreshAccessToken, hok] at hf
  | true =>
    simp only [refreshAccessToken, hok, Bool.not_true, if_neg] at hf
    simp at hf
    subst hf
    refine ⟨rfl, by simp⟩

/-- C9 witness: the theorem applied to a success response whose body does
carry a `refresh_token`, and to a failing response. -/
theorem refresh_returns_only_access_token_witness :
    refreshAccessToken refreshRespWithToken =
      .ok [("accessToken", refreshRespWithToken.json.getProp "access_token"),
           ("expiresIn", refreshRespWithToken.json.getProp "expires_in")] ∧
    refreshAccessToken refreshRespFail =
      .error ("Token refresh failed: " ++ refreshRespFail.text) :=
  ⟨(refresh_returns_only_access_token refreshRespWithToken).1 rfl,
   (refresh_returns_only_access_token refreshRespFail).2.2 rfl⟩

/-- Helper: discovery skips, in order, every candidate that threw or
returned a non-success status. -/
theorem discoverProjectId_skips_failed (failures rest : List FetchOutcome)
    (hfail : ∀ f ∈ failures, candidateFailed f = true) :
    discoverProjectId (failures ++ rest) = discoverProjectId rest := by
  induction failures with
  | nil => rfl
  | cons f fs ih =>
    have hf := hfail f (by simp)
    have htl : ∀ g ∈ fs, candidateFailed g = true := fun g hg => hfail g (by simp [hg])
    cases f with
    | threw => simpa [discoverProjectId] using ih htl
    | response ok body =>
      cases ok with
      | false => simpa [discoverProjectId] using ih htl
      | true => simp [candidateFailed] at hf

/-- C6: project discovery silently skips every candidate that threw or
returned a non-success status; when every candidate fails it returns
`none` (the code's `null`) instead of raising; and the first candidate
with a success status yields the project id with a bare string field
taking precedence, a nested object's truthy `id` field second. -/
theorem discovery_skip_precedence_fallback (failures rest : List FetchOutcome)
    (body : Json) (s : String) (v idv : Json)
    (hfail : ∀ f ∈ failures, candidateFailed f = true) :
    discoverProjectId (failures ++ rest) = discoverProjectId rest ∧
    discoverProjectId failures = none ∧
    (body.getProp "cloudaicompanionProject" = some (.str s) →
      discoverProjectId (failures ++ .response true body :: rest) = some (.str s)) ∧
    (body.getProp "cloudaicompanionProject" = some v → v.isString = false →
      optChainId v = some idv → idv.truthy = true →
      discoverProjectId (failures ++ .response true body :: rest) = some idv) := by
  refine ⟨discoverProjectId_skips_failed failures rest hfail, ?_, fun h => ?_,
    fun h hns hoc ht => ?_⟩
  · have := discoverProjectId_skips_failed failures [] hfail
    simpa using this
  · rw [discoverProjectId_skips_failed failures _ hfail]
    simp [discoverProjectId, h]
  · rw [discoverProjectId_skips_failed failures _ hfail]
    cases v with
    | str s' => simp [Json.isString] at hns
    | null => simp [optChainId] at hoc
    | bool b => simp [discoverProjectId, h, optChainId] at hoc ⊢; simp [hoc, ht]
    | num n => simp [discoverProjectId, h, optChainId] at hoc ⊢; simp [hoc, ht]
    | arr xs => simp [discoverProjectId, h, optChainId] at hoc ⊢; simp [hoc, ht]
    | obj fields => simp [discoverProjectId, h, optChainId] at hoc ⊢; simp [hoc, ht]

/-- C6 witness: after a thrown request and a 500, a success response with
a bare string project id is used; with a nested object, its id is used;
and a list of only failures yields `none`. -/
theorem discovery_skip_precedence_fallback_witness :
    discoverProjectId (failedCandidates ++ [.response true bodyWithStringProject]) =
      some (.str "proj-123") ∧
    discoverProjectId (failedCandidates ++ [.response true bodyWithNestedProject]) =
      some (.str "proj-456") ∧
    discoverProjectId failedCandidates = none :=
  ⟨(discovery_skip_precedence_fallback failedCandidates [] bodyWithStringProject
      "proj-123" .null .null (by decide)).2.2.1 rfl,
   (discovery_skip_precedence_fallback failedCandidates [] bodyWithNestedProject
      "" (.obj [("id", .str "proj-456")]) (.str "proj-456") (by decide)).2.2.2
      rfl rfl rfl rfl,
   (discovery_skip_precedence_fallback failedCandidates [] bodyWithStringProject
      "" .null .null (by decide)).2.1⟩

end AGProxy

namespace AGProxy

/-- Helper: a settled promise can never change value — every later
`resolve`/`reject`, close, or request leaves the settlement as it is. -/
theorem stepListener_keeps_settled (es : String) (st : ListenerRun) (v : Except String String)
    (e : ListenerEvent) (h : st.settled = some v) :
    (stepListener es st e).settled = some v := by
  cases e with
  | timerFire => simp [stepListener, settlePromise, closeServer, h]
  | request r =>
    by_cases hc : st.closed
    · simp [stepListener, hc, h]
    · by_cases hp : r.pathname = "/oauth-callback"
      · simp [stepListener, hc, hp, settlePromise, closeServer, h]
      · simp [stepListener, hc, hp, h]

/-- Helper: the sticky settlement, folded over any remaining trace. -/
theorem foldListener_keeps_settled (es : String) (events : List ListenerEvent) :
    ∀ (st : ListenerRun) (v : Except String String), st.settled = some v →
      (events.foldl (stepListener es) st).settled = some v := by
  induction events with
  | nil => intro st v h; simpa using h
  | cons e rest ih =>
    intro st v h
    exact ih (stepListener es st e) v (stepListener_keeps_settled es st v e h)

/-- Helper: from an open, unsettled state, the promise's final settlement
is exactly the outcome of the trace's first settling event. -/
theorem foldListener_first_outcome (es : String) (events : List ListenerEvent) :
    ∀ st : ListenerRun, st.settled = none → st.closed = false →
      (events.foldl (stepListener es) st).settled =
        (events.find? eventTerminal).map (eventOutcome es) := by
  induction events with
  | nil => intro st hs _; simpa using hs
  | cons e rest ih =>
    intro st hs hc
    cases e with
    | timerFire =>
      have hstep : (stepListener es st .timerFire).settled =
          some (.error "OAuth callback timeout - no response received") := by
        simp [stepListener, settlePromise, closeServer, hs]
      simpa [List.find?, eventTerminal, eventOutcome] using
        foldListener_keeps_settled es rest _ _ hstep
    | request r =>
      by_cases hp : r.pathname = "/oauth-callback"
      · have hstep : (stepListener es st (.request r)).settled =
            some (callbackOutcome es r) := by
          simp [stepListener, hc, hp, settlePromise, closeServer, hs]
        simpa [List.find?, eventTerminal, eventOutcome, hp] using
          foldListener_keeps_settled es rest _ _ hstep
      · have hstep : stepListener es st (.request r) = st := by
          simp [stepListener, hc, hp]
        simpa [List.find?, eventTerminal, hp, hstep] using ih st hs hc

/-- Helper: the whole run settles on the first settling event's outcome. -/
theorem runListener_settled_eq_first (es : String) (events : List ListenerEvent) :
    (runListener es events).settled = firstSettleOutcome es events :=
  foldListener_first_outcome es events initRun rfl rfl

/-- C1 (amended): exactly one of success, provider error, state mismatch,
no-code or timeout resolves a flow — the first settling event fixes the
promise's value and every later `resolve`/`reject` call is ineffective —
but the loser's close is not suppressed: the timeout is never cleared, so
after a successful callback the timer still fires and `server.close()`
runs a second time (the second close is a no-op in effect, yet it is
invoked). -/
theorem listener_single_resolution (es : String) (events : List ListenerEvent) :
    (runListener es events).settled = firstSettleOutcome es events ∧
    (runListener es [.request (goodCallback es), .timerFire]).closeCalls = 2 ∧
    (runListener es [.request (goodCallback es), .timerFire]).resolveCalls = 2 := by
  refine ⟨runListener_settled_eq_first es events, ?_, ?_⟩ <;>
    simp [runListener, stepListener, goodCallback, initRun, settlePromise, closeServer]

/-- C1 counterexample: on the concrete race where a valid callback is
followed by the timer firing, the flow is resolved once with the code,
but `resolve`/`reject` is invoked twice and `server.close()` is invoked
twice — refuting the claim that the loser's effects are fully suppressed
(the listener is, in fact, closed twice). -/
theorem listener_double_close_on_race :
    (runListener "st" [.request (goodCallback "st"), .timerFire]).closeCalls = 2 ∧
    (runListener "st" [.request (goodCallback "st"), .timerFire]).resolveCalls = 2 ∧
    (runListener "st" [.request (goodCallback "st"), .timerFire]).settled =
      some (.ok "auth-code-1") :=
  ⟨rfl, rfl, rfl⟩

/-- C2: a callback-path request with no error parameter and a state other
than the issued one makes the handler reject with the state-mismatch
error; whatever else the trace holds, the flow settles on that rejection
and token exchange is never invoked for the flow. -/
theorem state_mismatch_never_exchanges (es : String) (r : CbRequest)
    (rest : List ListenerEvent) (hpath : r.pathname = "/oauth-callback")
    (herr : r.error = none) (hstate : r.state ≠ some es) :
    callbackOutcome es r = .error "State mismatch" ∧
    (runListener es (.request r :: rest)).settled = some (.error "State mismatch") ∧
    tokenExchangeInvoked es (.request r :: rest) = false := by
  have hco : callbackOutcome es r = .error "State mismatch" := by
    simp [callbackOutcome, herr, jsTruthy, hstate]
  have hs : (runListener es (.request r :: rest)).settled =
      some (.error "State mismatch") := by
    rw [runListener_settled_eq_first]
    simp [firstSettleOutcome, List.find?, eventTerminal, hpath, eventOutcome, hco]
  exact ⟨hco, hs, by simp [tokenExchangeInvoked, hs]⟩

/-- C2 witness: the state-mismatch theorem on a concrete forged
callback. -/
theorem state_mismatch_never_exchanges_witness :
    callbackOutcome "good" mismatchReq = .error "State mismatch" ∧
    (runListener "good" [.request mismatchReq]).settled =
      some (.error "State mismatch") ∧
    tokenExchangeInvoked "good" [.request mismatchReq] = false :=
  state_mismatch_never_exchanges "good" mismatchReq [] rfl rfl (by decide)

end AGProxy

namespace AGProxy

/-- Helper: every sextet maps into the URL-safe alphabet. -/
theorem base64Char_mem (n : Nat) : base64Char n ∈ BASE64URL_ALPHABET := by
  have hlen : BASE64URL_ALPHABET.length = 64 := by decide
  have h : n % 64 < BASE64URL_ALPHABET.length := by
    rw [hlen]; exact Nat.mod_lt _ (by norm_num)
  unfold base64Char
  rw [List.getD_eq_getElem _ _ h]
  exact List.getElem_mem h

/-- Helper: every character the base64url chunk encoder emits is in the
URL-safe alphabet. -/
theorem base64urlChunks_mem : ∀ (bytes : List Nat) (c : Char),
    c ∈ base64urlChunks bytes → c ∈ BASE64URL_ALPHABET := by
  intro bytes
  induction bytes using base64urlChunks.induct with
  | case1 => intro c hc; simp [base64urlChunks] at hc
  | case2 b0 =>
    intro c hc
    simp [base64urlChunks] at hc
    rcases hc with h | h <;> exact h ▸ base64Char_mem _
  | case3 b0 b1 =>
    intro c hc
    simp [base64urlChunks] at hc
    rcases hc with h | h | h <;> exact h ▸ base64Char_mem _
  | case4 b0 b1 b2 rest ih =>
    intro c hc
    simp [base64urlChunks] at hc
    rcases hc with h | h | h | h | h
    · exact h ▸ base64Char_mem _
    · exact h ▸ base64Char_mem _
    · exact h ▸ base64Char_mem _
    · exact h ▸ base64Char_mem _
    · exact ih c h

/-- Helper: base64url output stays inside the URL-safe alphabet. -/
theorem base64urlEncode_mem (bytes : List Nat) (c : Char)
    (hc : c ∈ (base64urlEncode bytes).data) : c ∈ BASE64URL_ALPHABET :=
  base64urlChunks_mem _ c hc

/-- Helper: base64url output never contains a padding character. -/
theorem base64urlEncode_no_pad (bytes : List Nat) : '=' ∉ (base64urlEncode bytes).data := by
  intro h
  have := base64urlEncode_mem bytes '=' h
  revert this
  decide

/-- C5: for every generated PKCE pair, the challenge is the unpadded
URL-safe base64 of the SHA-256 of the verifier string's bytes (every
challenge character lies in the URL-safe alphabet and no padding
character occurs), and the verifier is the URL-safe encoding of the 32
random bytes drawn for it. -/
theorem pkce_challenge_shape (sha256 : List Nat → List Nat) (rnd : List Nat)
    (h : rnd.length = 32) :
    (generatePKCE sha256 rnd).challenge =
      base64urlEncode (sha256 (strBytes (generatePKCE sha256 rnd).verifier)) ∧
    (∀ c ∈ (generatePKCE sha256 rnd).challenge.data, c ∈ BASE64URL_ALPHABET) ∧
    '=' ∉ (generatePKCE sha256 rnd).challenge.data ∧
    (generatePKCE sha256 rnd).verifier = base64urlEncode rnd ∧
    32 ≤ rnd.length := by
  refine ⟨rfl, ?_, ?_, rfl, by omega⟩
  · exact fun c hc => base64urlEncode_mem _ c hc
  · exact base64urlEncode_no_pad _

/-- C5 witness: the PKCE theorem on a concrete hash function and the
all-zero 32-byte draw. -/
theorem pkce_challenge_shape_witness :
    (generatePKCE (fun _ => [0, 1, 2]) (List.replicate 32 0)).challenge =
      base64urlEncode ((fun _ : List Nat => [0, 1, 2])
        (strBytes (generatePKCE (fun _ => [0, 1, 2]) (List.replicate 32 0)).verifier)) ∧
    (∀ c ∈ (generatePKCE (fun _ => [0, 1, 2]) (List.replicate 32 0)).challenge.data,
      c ∈ BASE64URL_ALPHABET) ∧
    '=' ∉ (generatePKCE (fun _ => [0, 1, 2]) (List.replicate 32 0)).challenge.data ∧
    (generatePKCE (fun _ => [0, 1, 2]) (List.replicate 32 0)).verifier =
      base64urlEncode (List.replicate 32 0) ∧
    32 ≤ (List.replicate 32 0 : List Nat).length :=
  pkce_challenge_shape (fun _ => [0, 1, 2]) (List.replicate 32 0) (by decide)

end AGProxy

namespace AGProxy

/-- Helper: the uppercase percent-escape digits lie in the hex alphabet. -/
theorem percentHexChar_mem (n : Nat) : percentHexChar n ∈ "0123456789ABCDEF".data := by
  have hlen : ("0123456789ABCDEF".data).length = 16 := by decide
  have h : n % 16 < ("0123456789ABCDEF".data).length := by
    rw [hlen]; exact Nat.mod_lt _ (by norm_num)
  unfold percentHexChar
  rw [List.getD_eq_getElem _ _ h]
  exact List.getElem_mem h

/-- Helper: the lowercase hex digits lie in the hex alphabet. -/
theorem hexChar_mem (n : Nat) : hexChar n ∈ "0123456789abcdef".data := by
  have hlen : ("0123456789abcdef".data).length = 16 := by decide
  have h : n % 16 < ("0123456789abcdef".data).length := by
    rw [hlen]; exact Nat.mod_lt _ (by norm_num)
  unfold hexChar
  rw [List.getD_eq_getElem _ _ h]
  exact List.getElem_mem h

/-- Helper: the form-urlencoded escape of a character never emits an
ampersand. -/
theorem formEncodeChar_ne_amp (c : Char) : '&' ∉ formEncodeChar c := by
  intro hmem
  unfold formEncodeChar at hmem
  by_cases hs : formSafeChar c
  · rw [if_pos hs] at hmem
    simp only [List.mem_singleton] at hmem
    rw [← hmem] at hs
    exact absurd hs (by decide)
  · rw [if_neg hs] at hmem
    by_cases hsp : c = ' '
    · rw [if_pos hsp] at hmem
      exact absurd hmem (by decide)
    · rw [if_neg hsp] at hmem
      simp only [List.mem_cons] at hmem
      rcases hmem with h | h | h | h
      · exact absurd h (by decide)
      · have hh := percentHexChar_mem (c.toNat / 16 % 16)
        rw [← h] at hh
        exact absurd hh (by decide)
      · have hh := percentHexChar_mem (c.toNat % 16)
        rw [← h] at hh
        exact absurd hh (by decide)
      · cases h

/-- Helper: a form-urlencoded string never contains an ampersand. -/
theorem formEncode_ne_amp (s : String) : '&' ∉ (formEncode s).data := by
  intro hmem
  unfold formEncode at hmem
  rcases List.mem_flatten.mp hmem with ⟨l, hl, hcl⟩
  rcases List.mem_map.mp hl with ⟨c, _, rfl⟩
  exact formEncodeChar_ne_amp c hcl

/-- Helper: a serialized `k=v` pair never contains an ampersand. -/
theorem encodedPair_ne_amp (p : String × String) : '&' ∉ (encodedPair p).data := by
  intro hmem
  unfold encodedPair at hmem
  rw [String.data_append, String.data_append] at hmem
  rcases List.mem_append.mp hmem with h | h
  · rcases List.mem_append.mp h with h | h
    · exact formEncode_ne_amp _ h
    · simp at h
  · exact formEncode_ne_amp _ h

/-- Helper: dropping up to the first question mark, past a prefix that
holds none. -/
theorem afterQuestionMark_append (base q : List Char) (h : '?' ∉ base) :
    afterQuestionMark (base ++ '?' :: q) = q := by
  induction base with
  | nil => simp [afterQuestionMark]
  | cons c cs ih =>
    have hc : c ≠ '?' := fun hcq => h (by simp [hcq])
    simp only [List.cons_append, afterQuestionMark, if_neg hc]
    exact ih (fun hm => h (by simp [hm]))

/-- Helper: splitting text without ampersands is the identity. -/
theorem splitOnAmp_no_amp (cs : List Char) (h : '&' ∉ cs) : splitOnAmp cs = [cs] := by
  induction cs with
  | nil => rfl
  | cons c rest ih =>
    have hc : c ≠ '&' := fun hcq => h (by simp [hcq])
    have hrest := ih (fun hm => h (by simp [hm]))
    simp [splitOnAmp, hc, hrest]

/-- Helper: splitting past an ampersand-free prefix peels it off. -/
theorem splitOnAmp_append (xs ys : List Char) (h : '&' ∉ xs) :
    splitOnAmp (xs ++ '&' :: ys) = xs :: splitOnAmp ys := by
  induction xs with
  | nil => simp [splitOnAmp]
  | cons c cs ih =>
    have hc : c ≠ '&' := fun hcq => h (by simp [hcq])
    have hxs := ih (fun hm => h (by simp [hm]))
    simp only [List.cons_append, splitOnAmp, if_neg hc]
    have hxs' : splitOnAmp (cs.append ('&' :: ys)) = cs :: splitOnAmp ys := hxs
    rw [hxs']

/-- Helper: splitting the ampersand-join of ampersand-free parts recovers
the parts. -/
theorem splitOnAmp_joinAmp : ∀ (parts : List String), parts ≠ [] →
    (∀ p ∈ parts, '&' ∉ p.data) →
    splitOnAmp (joinAmp parts).data = parts.map String.data := by
  intro parts
  induction parts with
  | nil => intro h; exact absurd rfl h
  | cons p rest ih =>
    intro _ hamp
    cases rest with
    | nil =>
      simp only [joinAmp, List.map]
      exact splitOnAmp_no_amp p.data (hamp p (by simp))
    | cons q rest2 =>
      have hjoin : joinAmp (p :: q :: rest2) = p ++ "&" ++ joinAmp (q :: rest2) := rfl
      rw [hjoin, String.data_append, String.data_append]
      have hdq : ("&" : String).data = ['&'] := rfl
      rw [hdq, List.append_assoc, List.singleton_append]
      rw [splitOnAmp_append p.data _ (hamp p (by simp))]
      rw [ih (by simp) (fun x hx => hamp x (by simp [hx]))]
      rfl

/-- Helper: the query segments read back from a URL built as base, then a
question mark, then serialized pairs, are exactly the serialized pairs. -/
theorem querySegments_serialize (base : String) (pairs : List (String × String))
    (hq : '?' ∉ base.data) (hne : pairs ≠ []) :
    querySegments (base ++ "?" ++ serializeQuery pairs) = pairs.map encodedPair := by
  unfold querySegments serializeQuery
  have hdata : (base ++ "?" ++ joinAmp (pairs.map encodedPair)).data =
      base.data ++ '?' :: (joinAmp (pairs.map encodedPair)).data := by
    rw [String.data_append, String.data_append]
    have hdq : ("?" : String).data = ['?'] := rfl
    rw [hdq, List.append_assoc, List.singleton_append]
  rw [hdata, afterQuestionMark_append _ _ hq]
  rw [splitOnAmp_joinAmp (pairs.map encodedPair) (by simpa using hne)
    (fun x hx => by rcases List.mem_map.mp hx with ⟨pr, _, rfl⟩; exact encodedPair_ne_amp pr)]
  rw [List.map_map, List.map_map]
  have hid : (String.mk ∘ String.data) ∘ encodedPair = encodedPair := by
    funext pr
    rfl
  rw [hid]

/-- Helper: form-urlencoding leaves a string of safe characters as it is. -/
theorem formEncode_of_safe (s : String) (h : ∀ c ∈ s.data, formSafeChar c = true) :
    formEncode s = s := by
  unfold formEncode
  have hflat : ∀ cs : List Char, (∀ c ∈ cs, formSafeChar c = true) →
      (cs.map formEncodeChar).flatten = cs := by
    intro cs
    induction cs with
    | nil => intro _; rfl
    | cons c rest ih =>
      intro hall
      have hc := hall c (by simp)
      have hfc : formEncodeChar c = [c] := by
        unfold formEncodeChar
        rw [if_pos hc]
      rw [List.map_cons, List.flatten_cons, hfc,
        ih (fun x hx => hall x (by simp [hx])), List.singleton_append]
  rw [hflat s.data h]

/-- Helper: hex digits are form-urlencoded-safe characters. -/
theorem hexDigit_safe : ∀ c ∈ "0123456789abcdef".data, formSafeChar c = true := by
  decide

/-- Helper: the hex state string is untouched by form-urlencoding. -/
theorem formEncode_hexEncode (bytes : List Nat) :
    formEncode (hexEncode bytes) = hexEncode bytes := by
  apply formEncode_of_safe
  intro c hc
  apply hexDigit_safe
  unfold hexEncode at hc
  rcases List.mem_flatten.mp hc with ⟨l, hl, hcl⟩
  rcases List.mem_map.mp hl with ⟨b, _, rfl⟩
  simp only [List.mem_cons] at hcl
  rcases hcl with h | h | h
  · exact h ▸ hexChar_mem _
  · exact h ▸ hexChar_mem _
  · cases h

/-- C8: the query segments of every produced authorization URL are
exactly the serialized parameter pairs, and in particular the URL
carries `code_challenge_method=S256`, `access_type=offline` and
`prompt=consent` as query segments together with a `state` segment whose
value is the very state returned alongside the URL (the hex encoding of
the 16 random bytes). -/
theorem auth_url_contains_required_params (sha256 : List Nat → List Nat)
    (rnd32 rnd16 : List Nat) :
    querySegments (getAuthorizationUrl sha256 rnd32 rnd16).url =
      (authParams (generatePKCE sha256 rnd32).challenge
        (getAuthorizationUrl sha256 rnd32 rnd16).state).map encodedPair ∧
    "access_type=offline" ∈ querySegments (getAuthorizationUrl sha256 rnd32 rnd16).url ∧
    "prompt=consent" ∈ querySegments (getAuthorizationUrl sha256 rnd32 rnd16).url ∧
    "code_challenge_method=S256" ∈
      querySegments (getAuthorizationUrl sha256 rnd32 rnd16).url ∧
    ("state=" ++ (getAuthorizationUrl sha256 rnd32 rnd16).state) ∈
      querySegments (getAuthorizationUrl sha256 rnd32 rnd16).url ∧
    (getAuthorizationUrl sha256 rnd32 rnd16).state = hexEncode rnd16 := by
  have hurl : (getAuthorizationUrl sha256 rnd32 rnd16).url =
      GOOGLE_AUTH_URL ++ "?" ++ serializeQuery
        (authParams (generatePKCE sha256 rnd32).challenge (hexEncode rnd16)) := rfl
  have hstate : (getAuthorizationUrl sha256 rnd32 rnd16).state = hexEncode rnd16 := rfl
  have hseg : querySegments (getAuthorizationUrl sha256 rnd32 rnd16).url =
      (authParams (generatePKCE sha256 rnd32).challenge (hexEncode rnd16)).map
        encodedPair := by
    rw [hurl]
    exact querySegments_serialize GOOGLE_AUTH_URL _ (by decide) (by simp [authParams])
  refine ⟨by rw [hseg, hstate], ?_, ?_, ?_, ?_, hstate⟩
  · rw [hseg]
    exact List.mem_map.mpr ⟨("access_type", "offline"), by simp [authParams], rfl⟩
  · rw [hseg]
    exact List.mem_map.mpr ⟨("prompt", "consent"), by simp [authParams], rfl⟩
  · rw [hseg]
    exact List.mem_map.mpr ⟨("code_challenge_method", "S256"), by simp [authParams], rfl⟩
  · rw [hseg, hstate]
    refine List.mem_map.mpr ⟨("state", hexEncode rnd16), by simp [authParams], ?_⟩
    unfold encodedPair
    rw [formEncode_hexEncode]
    rfl

end AGProxy
